import Mathlib

/-!
Shallow embedding of `xmlParse.py` (a SAX-based XML pretty-printer) and
verification of its specification.

The Python program is a `xml.sax.ContentHandler` subclass whose handler
methods (`startElement`, `endElement`, `characters`) maintain three pieces of
state — a character buffer, a stack of open element names and the column of
the last start-tag write — and emit colour-decorated text to stdout.

Modelling choices:
* Output is modelled as a list of `Token`s, one per `sys.stdout.write`/`print`
  call of the source; `renderToken` maps a token to the exact decorated string
  the source writes (colour escape codes included).
* The Python list `elementStack` (append/pop at the end) is modelled as a Lean
  list with the top of the stack at the head; positions in the source are
  always computed from `len`, which is orientation-independent.
* Fallible Python code is modelled with `PyOutcome`: `.ok` for normal return,
  `.exit code` for `sys.exit(code)`, `.exn msg` for an uncaught exception
  (e.g. `IndexError` from `list.pop()` on an empty list, `TypeError` from a
  `%`-format with too few arguments).
* Python's `%`-formatting for `%s` conversions is modelled by `pyFormatChars`
  (the only conversions appearing in the source are `%s`); `str.strip()` is
  modelled by `pyStrip`.
-/

namespace XmlParse

/-- Colour escape sequence `'\033[1;31;40m'` (red on black), xmlParse.py line 15. -/
def RED : String := "\x1b[1;31;40m"

/-- Colour escape sequence (green on black), xmlParse.py line 16. -/
def GREEN : String := "\x1b[1;32;40m"

/-- Colour escape sequence (blue on black), xmlParse.py line 17. -/
def BLUE : String := "\x1b[1;34;40m"

/-- Colour escape sequence (white on black), xmlParse.py line 19. -/
def WHITE : String := "\x1b[0;37;40m"

/-- Colour escape sequence (black on black), xmlParse.py line 21. -/
def BLACK : String := "\x1b[0;30;40m"

/-- Outcome of running a piece of Python code: normal value, `sys.exit(code)`,
or an uncaught exception carrying the exception class name. -/
inductive PyOutcome (α : Type) where
  | ok (a : α)
  | exit (code : Nat)
  | exn (msg : String)
  deriving DecidableEq

/-- Python `%`-formatting restricted to the `%s` conversions that appear in the
source. Each `%s` consumes one argument; a `%s` with no argument left models
`TypeError: not enough arguments for format string` (`none`), and leftover
arguments model `TypeError: not all arguments converted` (`none`). -/
def pyFormatChars : List Char → List String → Option String
  | [], [] => some ""
  | [], _ :: _ => none
  | '%' :: 's' :: cs, a :: as => (pyFormatChars cs as).map (fun r => a ++ r)
  | '%' :: 's' :: _cs, [] => none
  | c :: cs, as => (pyFormatChars cs as).map (fun r => c.toString ++ r)

/-- Python `fmt % args` for `%s`-only format strings. -/
def pyFormat (fmt : String) (args : List String) : Option String :=
  pyFormatChars fmt.data args

/-- The whitespace characters removed by Python's `str.strip()` (ASCII range). -/
def isPySpace (c : Char) : Bool :=
  c == ' ' || c == '\t' || c == '\n' || c == '\r' || c == '\x0b' || c == '\x0c'

/-- Python `str.strip()`: remove leading and trailing whitespace. -/
def pyStrip (s : String) : String :=
  String.mk (((s.data.dropWhile isPySpace).reverse.dropWhile isPySpace).reverse)

/-- One output token per `write`/`print` call of the source. -/
inductive Token where
  | newline
  | filler
  | startName (name : String)
  | endName (name : String)
  | attr (name : String) (value : String)
  | data (s : String)
  deriving DecidableEq

/-- The exact decorated string each token stands for, from the colour macros
`SPACES`, `STARTNAME`, `ENDNAME`, `PARENSTMNT`, `ELEMENTDATA` (lines 24–28)
instantiated at the arguments the source passes (`writeSpaces` is always
called with three spaces as the filler). -/
def renderToken : Token → String
  | Token.newline => "\n"
  | Token.filler => BLACK ++ "   " ++ WHITE
  | Token.startName n => RED ++ n ++ " " ++ WHITE
  | Token.endName n => RED ++ "/" ++ n ++ "\n" ++ WHITE
  | Token.attr n v => BLUE ++ "(" ++ n ++ " = " ++ v ++ ") " ++ WHITE
  | Token.data s => GREEN ++ s ++ " " ++ WHITE

/-- The mutable state of `XmlContentHandler` (lines 31–33): `charBuffer`,
`elementStack` (head = top of stack) and `nLastWritePos`. -/
structure HandlerState where
  charBuffer : String
  elementStack : List String
  nLastWritePos : Nat
  deriving DecidableEq

/-- The state before the first event: `charBuffer = ''`, `elementStack = []`,
`nLastWritePos = 0`. -/
def initState : HandlerState := ⟨"", [], 0⟩

/-- `pushElementToStack` (lines 38–41): record `pos = len(stack)` before the
push, append `name`, return `pos` together with the new stack. -/
def pushElementToStack (elementStack : List String) (name : String) :
    Nat × List String :=
  (elementStack.length, name :: elementStack)

/-- The format string of the mismatch report in `popElementFromStack`
(line 48). It contains two `%s` conversions but the source applies it to the
single argument `WHITE` (`name` is passed to `print` as a second positional
argument, not to `%`). -/
def mismatchMessageFormat : String :=
  "%s\nelement %s was not at the top of the stack\n\n"

/-- `popElementFromStack` (lines 43–50): read `len`, pop the top; if it equals
`name`, return `len - 1` with the remaining stack. `list.pop()` on an empty
list raises `IndexError`. On a mismatch the source evaluates
`mismatchMessageFormat % WHITE` inside the `print` call before reaching
`sys.exit(4)`; that formatting raises `TypeError` (two `%s`, one argument). -/
def popElementFromStack (elementStack : List String) (name : String) :
    PyOutcome (Nat × List String) :=
  let length := elementStack.length
  match elementStack with
  | [] => PyOutcome.exn "IndexError"
  | top :: restOfStack =>
    if name = top then PyOutcome.ok (length - 1, restOfStack)
    else
      match pyFormat mismatchMessageFormat [WHITE] with
      | none => PyOutcome.exn "TypeError"
      | some _ => PyOutcome.exit 4

/-- `writeSpaces` (lines 52–54): write the filler `pos` times. -/
def writeSpaces (pos : Nat) : List Token :=
  List.replicate pos Token.filler

/-- `writeNewLine` (lines 56–57). -/
def writeNewLine : List Token := [Token.newline]

/-- `writeStartName` (lines 59–60). -/
def writeStartName (name : String) : List Token := [Token.startName name]

/-- `writeEndName` (lines 62–63). -/
def writeEndName (name : String) : List Token := [Token.endName name]

/-- `writeElementData` (lines 65–67): write the data only if it is non-empty. -/
def writeElementData (data : String) : List Token :=
  if data ≠ "" then [Token.data data] else []

/-- `attributes.getNames()`: the attribute names, in order. -/
def getNames (attributes : List (String × String)) : List String :=
  attributes.map Prod.fst

/-- `attributes.getValue(iname)`: the value associated with `iname`. -/
def getValue (attributes : List (String × String)) (iname : String) :
    Option String :=
  attributes.lookup iname

/-- `writeAttributes` (lines 69–71): for each name produced by `getNames`,
write `(name = value)` with the value from `getValue`. -/
def writeAttributes (attributes : List (String × String)) : List Token :=
  (getNames attributes).filterMap fun iname =>
    (getValue attributes iname).map fun v => Token.attr iname v

/-- `getCharacterData` (lines 73–76): return the stripped buffer contents and
the cleared buffer. -/
def getCharacterData (charBuffer : String) : String × String :=
  (pyStrip charBuffer, "")

/-- `startElement` (lines 78–84): push (obtaining `pos`), write a newline,
`pos` fillers, the name and the attributes, then set `nLastWritePos := pos`. -/
def startElement (st : HandlerState) (name : String)
    (attributes : List (String × String)) : HandlerState × List Token :=
  let pos := (pushElementToStack st.elementStack name).1
  let newStack := (pushElementToStack st.elementStack name).2
  (⟨st.charBuffer, newStack, pos⟩,
   writeNewLine ++ writeSpaces pos ++ writeStartName name ++
     writeAttributes attributes)

/-- `endElement` (lines 86–92): pop (obtaining `pos`), drain the character
buffer, write the data, re-indent with `pos` fillers when
`pos < nLastWritePos`, then write the closing marker. `nLastWritePos` is not
modified. -/
def endElement (st : HandlerState) (name : String) :
    PyOutcome (HandlerState × List Token) :=
  match popElementFromStack st.elementStack name with
  | PyOutcome.ok (pos, newStack) =>
    let charStr := (getCharacterData st.charBuffer).1
    let newBuffer := (getCharacterData st.charBuffer).2
    PyOutcome.ok
      (⟨newBuffer, newStack, st.nLastWritePos⟩,
       writeElementData charStr ++
         (if pos < st.nLastWritePos then writeSpaces pos else []) ++
         writeEndName name)
  | PyOutcome.exit code => PyOutcome.exit code
  | PyOutcome.exn msg => PyOutcome.exn msg

/-- `characters` (lines 94–95): append the fragment to the buffer; nothing is
written. -/
def characters (st : HandlerState) (content : String) : HandlerState :=
  { st with charBuffer := st.charBuffer ++ content }

/-- A SAX event delivered to the handler. -/
inductive Event where
  | start (name : String) (attributes : List (String × String))
  | chars (s : String)
  | endTag (name : String)
  deriving DecidableEq

/-- Dispatch of one SAX event to the corresponding handler method. -/
def step (st : HandlerState) : Event → PyOutcome (HandlerState × List Token)
  | Event.start n a => PyOutcome.ok (startElement st n a)
  | Event.chars s => PyOutcome.ok (characters st s, [])
  | Event.endTag n => endElement st n

/-- Sequencing of fallible Python steps: `sys.exit` and exceptions abort. -/
def PyOutcome.andThen : PyOutcome α → (α → PyOutcome β) → PyOutcome β
  | PyOutcome.ok a, f => f a
  | PyOutcome.exit n, _ => PyOutcome.exit n
  | PyOutcome.exn m, _ => PyOutcome.exn m

/-- Run the handler over a list of events, accumulating the emitted tokens. -/
def run (st : HandlerState) : List Event → PyOutcome (HandlerState × List Token)
  | [] => PyOutcome.ok (st, [])
  | e :: es =>
    (step st e).andThen fun p =>
      (run p.1 es).andThen fun q => PyOutcome.ok (q.1, p.2 ++ q.2)

/-- Number of `StartElement` events in a list. -/
def countStart (es : List Event) : Nat :=
  es.countP fun e => match e with | Event.start _ _ => true | _ => false

/-- Number of `EndElement` events in a list. -/
def countEnd (es : List Event) : Nat :=
  es.countP fun e => match e with | Event.endTag _ => true | _ => false

/-- Number of indentation filler tokens in an output fragment. -/
def countFiller (l : List Token) : Nat :=
  l.countP fun t => match t with | Token.filler => true | _ => false

/-- Well-formed (properly bracketed) event sequences: the empty sequence,
a character fragment followed by a well-formed sequence, or a matched
`start`/`endTag` pair enclosing a well-formed sequence and followed by a
well-formed sequence. This is the contract the SAX event source guarantees. -/
inductive WF : List Event → Prop where
  | nil : WF []
  | chars (s : String) (rest : List Event) : WF rest → WF (Event.chars s :: rest)
  | node (n : String) (a : List (String × String)) (inner rest : List Event) :
      WF inner → WF rest →
      WF (Event.start n a :: (inner ++ Event.endTag n :: rest))

/-- Result of the `__main__` block (lines 115–123): print usage and
`sys.exit(code)`, or proceed to `main(sys.argv[1])`, or die with the
`IndexError` raised by `sys.argv[1]` when no argument was given. -/
inductive MainResult where
  | usageExit (code : Nat)
  | runFile (sourceFileName : String)
  | exnIndexError
  deriving DecidableEq

/-- The `__main__` block (lines 115–121): evaluate `sys.argv[1]` (raising
`IndexError` when absent), test it against `-h`/`--help` (exit 0 via
`usage`), then require `len(sys.argv) == 2` (else exit 1 via `usage`), then
call `main(sys.argv[1])`. `argv` includes the program name at index 0. -/
def topLevel (argv : List String) : MainResult :=
  match argv[1]? with
  | none => MainResult.exnIndexError
  | some a1 =>
    if a1 = "-h" ∨ a1 = "--help" then MainResult.usageExit 0
    else if argv.length ≠ 2 then MainResult.usageExit 1
    else MainResult.runFile a1

/-- Outcome of the `open` call in `main` (line 103). -/
inductive OpenResult where
  | ok
  | osError (msg : String)
  deriving DecidableEq

/-- Outcome of `xml.sax.parse` (line 105): success, a `SAXParseException`
with message `e.getMessage()`, or an `OSError` while reading. -/
inductive ParseResult where
  | ok
  | saxParseError (msg : String)
  | osError (msg : String)
  deriving DecidableEq

/-- Outcome of `main` (lines 101–113): fall through on success, or print a
message and `sys.exit(code)`. -/
inductive MainOutcome where
  | success
  | exitWith (code : Nat) (printed : String)
  deriving DecidableEq

/-- `main(sourceFileName)` (lines 101–113): `open` then `xml.sax.parse`;
a `SAXParseException` is reported with the filename and the parser message
and exits 2; an `OSError` (from `open` or from parsing) is reported with the
filename and the OS message and exits 3. The outcomes of the two external
calls are passed in as parameters. -/
def mainFn (sourceFileName : String) (openR : OpenResult)
    (parseR : ParseResult) : MainOutcome :=
  match openR with
  | OpenResult.osError m =>
    MainOutcome.exitWith 3
      ("\nFailed to open " ++ sourceFileName ++ ": " ++ m ++ "\n\n")
  | OpenResult.ok =>
    match parseR with
    | ParseResult.saxParseError m =>
      MainOutcome.exitWith 2
        ("\nFailed to parse " ++ sourceFileName ++
          ". This appears not to be a valid xml document: " ++ m ++ "\n\n")
    | ParseResult.osError m =>
      MainOutcome.exitWith 3
        ("\nFailed to open " ++ sourceFileName ++ ": " ++ m ++ "\n\n")
    | ParseResult.ok => MainOutcome.success

/-! ### Basic lemmas about the event loop -/

theorem run_nil (st : HandlerState) : run st [] = PyOutcome.ok (st, []) := rfl

theorem run_cons (st : HandlerState) (e : Event) (es : List Event) :
    run st (e :: es) =
      (step st e).andThen fun p =>
        (run p.1 es).andThen fun q => PyOutcome.ok (q.1, p.2 ++ q.2) := rfl

theorem run_cons_ok {st s1 s2 : HandlerState} {o1 o2 : List Token} {e : Event}
    {es : List Event} (h1 : step st e = PyOutcome.ok (s1, o1))
    (h2 : run s1 es = PyOutcome.ok (s2, o2)) :
    run st (e :: es) = PyOutcome.ok (s2, o1 ++ o2) := by
  rw [run_cons, h1]
  simp [PyOutcome.andThen, h2]

theorem run_append_ok {s1 s2 : HandlerState} {o2 : List Token}
    (xs ys : List Event) :
    ∀ {st : HandlerState} {o1 : List Token},
      run st xs = PyOutcome.ok (s1, o1) → run s1 ys = PyOutcome.ok (s2, o2) →
      run st (xs ++ ys) = PyOutcome.ok (s2, o1 ++ o2) := by
  induction xs with
  | nil =>
    intro st o1 h1 h2
    rw [run_nil] at h1
    simp only [PyOutcome.ok.injEq, Prod.mk.injEq] at h1
    obtain ⟨rfl, rfl⟩ := h1
    simpa using h2
  | cons e xs ih =>
    intro st o1 h1 h2
    cases hs : step st e with
    | ok p =>
      obtain ⟨sm, om⟩ := p
      rw [run_cons, hs] at h1
      simp only [PyOutcome.andThen] at h1
      cases hr : run sm xs with
      | ok q =>
        obtain ⟨sq, oq⟩ := q
        rw [hr] at h1
        simp only [PyOutcome.andThen, PyOutcome.ok.injEq, Prod.mk.injEq] at h1
        obtain ⟨rfl, rfl⟩ := h1
        have hx := ih hr h2
        rw [List.cons_append, run_cons, hs]
        simp [PyOutcome.andThen, hx, List.append_assoc]
      | exit n => rw [hr] at h1; simp [PyOutcome.andThen] at h1
      | exn m => rw [hr] at h1; simp [PyOutcome.andThen] at h1
    | exit n => rw [run_cons, hs] at h1; simp [PyOutcome.andThen] at h1
    | exn m => rw [run_cons, hs] at h1; simp [PyOutcome.andThen] at h1

theorem endElement_top (st : HandlerState) (n : String) (rest : List String)
    (h : st.elementStack = n :: rest) :
    endElement st n = PyOutcome.ok
      ((⟨"", rest, st.nLastWritePos⟩ : HandlerState),
       writeElementData (pyStrip st.charBuffer) ++
         (if rest.length < st.nLastWritePos then writeSpaces rest.length
           else []) ++
         writeEndName n) := by
  unfold endElement popElementFromStack
  rw [h]
  simp [getCharacterData]

/-! ### Counting lemmas -/

theorem countStart_nil : countStart [] = 0 := rfl

theorem countEnd_nil : countEnd [] = 0 := rfl

theorem countStart_cons_start (n : String) (a : List (String × String))
    (es : List Event) :
    countStart (Event.start n a :: es) = countStart es + 1 := by
  simp [countStart, List.countP_cons]

theorem countStart_cons_chars (s : String) (es : List Event) :
    countStart (Event.chars s :: es) = countStart es := by
  simp [countStart, List.countP_cons]

theorem countStart_cons_end (n : String) (es : List Event) :
    countStart (Event.endTag n :: es) = countStart es := by
  simp [countStart, List.countP_cons]

theorem countStart_append (l1 l2 : List Event) :
    countStart (l1 ++ l2) = countStart l1 + countStart l2 := by
  simp [countStart, List.countP_append]

theorem countEnd_cons_start (n : String) (a : List (String × String))
    (es : List Event) :
    countEnd (Event.start n a :: es) = countEnd es := by
  simp [countEnd, List.countP_cons]

theorem countEnd_cons_chars (s : String) (es : List Event) :
    countEnd (Event.chars s :: es) = countEnd es := by
  simp [countEnd, List.countP_cons]

theorem countEnd_cons_end (n : String) (es : List Event) :
    countEnd (Event.endTag n :: es) = countEnd es + 1 := by
  simp [countEnd, List.countP_cons]

theorem countEnd_append (l1 l2 : List Event) :
    countEnd (l1 ++ l2) = countEnd l1 + countEnd l2 := by
  simp [countEnd, List.countP_append]

theorem countFiller_append (l1 l2 : List Token) :
    countFiller (l1 ++ l2) = countFiller l1 + countFiller l2 := by
  simp [countFiller, List.countP_append]

theorem countFiller_writeSpaces (pos : Nat) :
    countFiller (writeSpaces pos) = pos := by
  induction pos with
  | zero => rfl
  | succ k ih =>
    simp [countFiller, writeSpaces, List.replicate_succ, List.countP_cons] at ih ⊢
    omega

theorem countFiller_writeElementData (s : String) :
    countFiller (writeElementData s) = 0 := by
  unfold writeElementData
  split <;> rfl

theorem countFiller_writeAttributes (attributes : List (String × String)) :
    countFiller (writeAttributes attributes) = 0 := by
  rw [countFiller, List.countP_eq_zero]
  intro t ht
  rw [writeAttributes, List.mem_filterMap] at ht
  obtain ⟨iname, _, hmap⟩ := ht
  obtain ⟨v, _, rfl⟩ := Option.map_eq_some'.mp hmap
  simp

theorem countFiller_writeNewLine : countFiller writeNewLine = 0 := rfl

theorem countFiller_writeStartName (n : String) :
    countFiller (writeStartName n) = 0 := rfl

theorem countFiller_startElement (st : HandlerState) (n : String)
    (a : List (String × String)) :
    countFiller (startElement st n a).2 = st.elementStack.length := by
  show countFiller (writeNewLine ++ writeSpaces st.elementStack.length ++
    writeStartName n ++ writeAttributes a) = st.elementStack.length
  rw [countFiller_append, countFiller_append, countFiller_append,
    countFiller_writeNewLine, countFiller_writeSpaces,
    countFiller_writeAttributes, countFiller_writeStartName]
  omega

/-! ### Attribute rendering -/

theorem filterMap_ext_mem {α β : Type} (l : List α) (f g : α → Option β)
    (h : ∀ a ∈ l, f a = g a) : l.filterMap f = l.filterMap g := by
  induction l with
  | nil => rfl
  | cons a t ih =>
    rw [List.filterMap_cons, List.filterMap_cons, h a (by simp),
      ih fun x hx => h x (by simp [hx])]

theorem writeAttributes_eq {attributes : List (String × String)}
    (h : (getNames attributes).Nodup) :
    writeAttributes attributes =
      attributes.map fun p => Token.attr p.1 p.2 := by
  induction attributes with
  | nil => rfl
  | cons kv t ih =>
    obtain ⟨k, v⟩ := kv
    rw [getNames, List.map_cons, List.nodup_cons] at h
    obtain ⟨hk, ht⟩ := h
    rw [writeAttributes, getNames, List.map_cons, List.filterMap_cons]
    have hkv : getValue ((k, v) :: t) k = some v := by
      simp [getValue, List.lookup]
    rw [hkv]
    have hrest : (t.map Prod.fst).filterMap
        (fun iname => (getValue ((k, v) :: t) iname).map
          fun w => Token.attr iname w) =
        (t.map Prod.fst).filterMap
          (fun iname => (getValue t iname).map fun w => Token.attr iname w) := by
      refine filterMap_ext_mem _ _ _ fun iname hin => ?_
      have hne : iname ≠ k := fun hik => hk (hik ▸ hin)
      have hbeq : (iname == k) = false := beq_eq_false_iff_ne.mpr hne
      simp [getValue, List.lookup, hbeq]
    rw [hrest]
    rw [writeAttributes, getNames] at ih
    rw [ih ht, List.map_cons]
    rfl

/-! ### Well-formed event sequences -/

theorem wf_counts {es : List Event} (h : WF es) :
    countStart es = countEnd es := by
  induction h with
  | nil => rfl
  | chars s rest _ ih =>
    rw [countStart_cons_chars, countEnd_cons_chars]
    exact ih
  | node n a inner rest _ _ ih1 ih2 =>
    rw [countStart_cons_start, countEnd_cons_start, countStart_append,
      countEnd_append, countStart_cons_end, countEnd_cons_end]
    omega

theorem wf_run {es : List Event} (h : WF es) :
    ∀ st : HandlerState, ∃ buf lwp out,
      run st es = PyOutcome.ok ((⟨buf, st.elementStack, lwp⟩ : HandlerState), out) := by
  induction h with
  | nil =>
    intro st
    exact ⟨st.charBuffer, st.nLastWritePos, [], rfl⟩
  | chars s rest _ ih =>
    intro st
    obtain ⟨buf, lwp, out, hrun⟩ := ih (characters st s)
    exact ⟨buf, lwp, [] ++ out, run_cons_ok rfl hrun⟩
  | node n a inner rest hi hr ih1 ih2 =>
    intro st
    obtain ⟨b2, l2, o2, h2⟩ := ih1 (startElement st n a).1
    obtain ⟨b4, l4, o4, h4⟩ := ih2 (⟨"", st.elementStack, l2⟩ : HandlerState)
    have hend : endElement (⟨b2, n :: st.elementStack, l2⟩ : HandlerState) n =
        PyOutcome.ok ((⟨"", st.elementStack, l2⟩ : HandlerState),
          writeElementData (pyStrip b2) ++
            (if st.elementStack.length < l2 then
              writeSpaces st.elementStack.length else []) ++
            writeEndName n) :=
      endElement_top _ n st.elementStack rfl
    have hstep : step (⟨b2, n :: st.elementStack, l2⟩ : HandlerState)
        (Event.endTag n) =
        PyOutcome.ok ((⟨"", st.elementStack, l2⟩ : HandlerState),
          writeElementData (pyStrip b2) ++
            (if st.elementStack.length < l2 then
              writeSpaces st.elementStack.length else []) ++
            writeEndName n) := hend
    have hclose := run_cons_ok hstep h4
    have hmid := run_append_ok inner (Event.endTag n :: rest) h2 hclose
    exact ⟨b4, l4, _, run_cons_ok rfl hmid⟩

theorem wf_run_front {es : List Event} (h : WF es) :
    ∀ (st : HandlerState) (p q : List Event), es = p ++ q →
      ∃ buf stk lwp out,
        run st p = PyOutcome.ok ((⟨buf, stk, lwp⟩ : HandlerState), out) ∧
        stk.length + countEnd p = st.elementStack.length + countStart p := by
  induction h with
  | nil =>
    intro st p q hpq
    obtain ⟨rfl, rfl⟩ := List.append_eq_nil.mp hpq.symm
    exact ⟨st.charBuffer, st.elementStack, st.nLastWritePos, [], rfl, by
      rw [countStart_nil, countEnd_nil]⟩
  | chars s rest hr ih =>
    intro st p q hpq
    cases p with
    | nil =>
      exact ⟨st.charBuffer, st.elementStack, st.nLastWritePos, [], rfl, by
        rw [countStart_nil, countEnd_nil]⟩
    | cons e p' =>
      rw [List.cons_append] at hpq
      injection hpq with he htl
      subst he
      obtain ⟨buf, stk, lwp, out, hrun, hlen⟩ := ih (characters st s) p' q htl
      refine ⟨buf, stk, lwp, [] ++ out, run_cons_ok rfl hrun, ?_⟩
      rw [countStart_cons_chars, countEnd_cons_chars]
      exact hlen
  | node n a inner rest hi hr ih1 ih2 =>
    intro st p q hpq
    cases p with
    | nil =>
      exact ⟨st.charBuffer, st.elementStack, st.nLastWritePos, [], rfl, by
        rw [countStart_nil, countEnd_nil]⟩
    | cons e p' =>
      rw [List.cons_append] at hpq
      injection hpq with he htl
      subst he
      have hstk : (startElement st n a).1.elementStack.length =
          st.elementStack.length + 1 := by
        simp [startElement, pushElementToStack]
      rcases List.append_eq_append_iff.mp htl.symm with
        ⟨r, hinner, _hq⟩ | ⟨r, hp', hq⟩
      · -- p' is a proper front of the inner sequence
        obtain ⟨buf, stk, lwp, out, hrun, hlen⟩ :=
          ih1 (startElement st n a).1 p' r hinner
        refine ⟨buf, stk, lwp, (startElement st n a).2 ++ out,
          run_cons_ok rfl hrun, ?_⟩
        rw [hstk] at hlen
        rw [countStart_cons_start, countEnd_cons_start]
        omega
      · cases r with
        | nil =>
          -- p' is exactly the inner sequence
          rw [List.append_nil] at hp'
          subst hp'
          obtain ⟨b2, l2, o2, h2⟩ := wf_run hi (startElement st n a).1
          refine ⟨b2, (startElement st n a).1.elementStack, l2,
            (startElement st n a).2 ++ o2, run_cons_ok rfl h2, ?_⟩
          rw [hstk, countStart_cons_start, countEnd_cons_start]
          have := wf_counts hi
          omega
        | cons e2 r' =>
          injection hq with he2 hrest
          subst he2
          subst hp'
          obtain ⟨b2, l2, o2, h2⟩ := wf_run hi (startElement st n a).1
          have hend : endElement
              (⟨b2, (startElement st n a).1.elementStack, l2⟩ : HandlerState) n =
              PyOutcome.ok ((⟨"", st.elementStack, l2⟩ : HandlerState),
                writeElementData (pyStrip b2) ++
                  (if st.elementStack.length < l2 then
                    writeSpaces st.elementStack.length else []) ++
                  writeEndName n) :=
            endElement_top _ n st.elementStack rfl
          obtain ⟨b4, stk, l4, o4, h4, hlen4⟩ :=
            ih2 (⟨"", st.elementStack, l2⟩ : HandlerState) r' q hrest
          have hstep : step
              (⟨b2, (startElement st n a).1.elementStack, l2⟩ : HandlerState)
              (Event.endTag n) =
              PyOutcome.ok ((⟨"", st.elementStack, l2⟩ : HandlerState),
                writeElementData (pyStrip b2) ++
                  (if st.elementStack.length < l2 then
                    writeSpaces st.elementStack.length else []) ++
                  writeEndName n) := hend
          have hclose := run_cons_ok hstep h4
          have hmid := run_append_ok inner (Event.endTag n :: r') h2 hclose
          refine ⟨b4, stk, l4, _, run_cons_ok rfl hmid, ?_⟩
          have hcnt := wf_counts hi
          rw [countStart_cons_start, countEnd_cons_start, countStart_append,
            countEnd_append, countStart_cons_end, countEnd_cons_end]
          simp only [HandlerState.mk.injEq] at hlen4 ⊢
          omega

theorem writeElementData_eq (s : String) :
    writeElementData s = if s = "" then [] else [Token.data s] := by
  unfold writeElementData
  by_cases hs : s = "" <;> simp [hs]

/-! ### The claims -/

/-- Claim C1: for every `StartElement(name, attributes)` event, the renderer
first pushes `name` and obtains `pos`, the zero-based stack depth before the
push (the new stack is `name` on top of the old one and `pos` is the old
depth); it emits a line break, then exactly `pos` indentation filler units,
then the element name, then every attribute rendered in the
`(name = value)` form, space-separated on the same line (no further line
break is emitted); and it sets the Last-Write Column to `pos`. Stated for
attribute sets with distinct names, as XML attribute sets are maps. -/
theorem C1_startElement_rendering (st : HandlerState) (name : String)
    (attributes : List (String × String))
    (h : (getNames attributes).Nodup) :
    (startElement st name attributes).2 =
      Token.newline ::
        (List.replicate st.elementStack.length Token.filler ++
          ([Token.startName name] ++
            attributes.map fun p => Token.attr p.1 p.2)) ∧
    (startElement st name attributes).1.elementStack = name :: st.elementStack ∧
    (startElement st name attributes).1.nLastWritePos =
      st.elementStack.length ∧
    (∀ p ∈ attributes,
      renderToken (Token.attr p.1 p.2) =
        BLUE ++ "(" ++ p.1 ++ " = " ++ p.2 ++ ") " ++ WHITE) := by
  refine ⟨?_, rfl, rfl, fun p _ => rfl⟩
  show writeNewLine ++ writeSpaces st.elementStack.length ++
      writeStartName name ++ writeAttributes attributes = _
  rw [writeAttributes_eq h]
  simp [writeNewLine, writeSpaces, writeStartName]

/-- Witness for C1 at a concrete input: the element `item` with attributes
`id="7"`, `name="x"` opened at depth 0. -/
theorem C1_witness :
    (getNames [("id", "7"), ("name", "x")]).Nodup ∧
    (startElement initState "item" [("id", "7"), ("name", "x")]).2 =
      [Token.newline, Token.startName "item", Token.attr "id" "7",
       Token.attr "name" "x"] :=
  ⟨by decide,
    (C1_startElement_rendering initState "item" [("id", "7"), ("name", "x")]
      (by decide)).1.trans (by decide)⟩

/-- Claim C2: for every `EndElement(name)` event with popped depth
`pos = rest.length`, the renderer emits `pos` indentation filler units
before the closing marker exactly when `pos < nLastWritePos` (the filler
count of the re-indent fragment is `pos` in that case and `0` otherwise,
and the preceding data fragment contains no filler); the closing marker is
the name prefixed with a slash followed by a line break; the Last-Write
Column of the resulting state is unchanged, and the `characters` handler
does not change it either — only `startElement` updates it. -/
theorem C2_endElement_rendering (st : HandlerState) (name : String)
    (rest : List String) (h : st.elementStack = name :: rest) :
    endElement st name =
      PyOutcome.ok ((⟨"", rest, st.nLastWritePos⟩ : HandlerState),
        writeElementData (pyStrip st.charBuffer) ++
          (if rest.length < st.nLastWritePos then writeSpaces rest.length
            else []) ++
          [Token.endName name]) ∧
    countFiller (writeElementData (pyStrip st.charBuffer)) = 0 ∧
    countFiller (if rest.length < st.nLastWritePos then
        writeSpaces rest.length else []) =
      (if rest.length < st.nLastWritePos then rest.length else 0) ∧
    renderToken (Token.endName name) =
      RED ++ "/" ++ name ++ "\n" ++ WHITE ∧
    (∀ content, (characters st content).nLastWritePos = st.nLastWritePos) := by
  refine ⟨endElement_top st name rest h, countFiller_writeElementData _, ?_,
    rfl, fun _ => rfl⟩
  split
  · exact countFiller_writeSpaces _
  · rfl

/-- Witness for C2 at a concrete input: closing `b` at depth 1 with buffered
text `"  hi "` while the Last-Write Column is 2 (a deeper start was written
last), so one filler unit is re-emitted before the closing marker. -/
theorem C2_witness :
    endElement ⟨"  hi ", ["b", "a"], 2⟩ "b" =
      PyOutcome.ok ((⟨"", ["a"], 2⟩ : HandlerState),
        [Token.data "hi", Token.filler, Token.endName "b"]) ∧
    (⟨"", ["a"], 2⟩ : HandlerState).nLastWritePos =
      (⟨"  hi ", ["b", "a"], 2⟩ : HandlerState).nLastWritePos :=
  ⟨((C2_endElement_rendering ⟨"  hi ", ["b", "a"], 2⟩ "b" ["a"] rfl).1).trans
    (by decide), rfl⟩

/-- Claim C3: for every well-formed event sequence, (1) running any front
portion succeeds (so the stack is never popped past empty) and leaves the
stack depth equal to the XML nesting depth of that portion
(`starts − ends`, with `ends ≤ starts`); (2) the stack is empty after the
final event; (3) the indentation filler count emitted for a start tag
equals its nesting depth (root = 0): the filler count of the tokens the
start event emits from the reached state equals `starts − ends` of the
portion before it. -/
theorem C3_depth_invariant (es : List Event) (h : WF es) :
    (∀ p q, es = p ++ q →
      ∃ buf stk lwp out,
        run initState p =
          PyOutcome.ok ((⟨buf, stk, lwp⟩ : HandlerState), out) ∧
        stk.length + countEnd p = countStart p ∧
        countEnd p ≤ countStart p) ∧
    (∃ buf lwp out,
      run initState es =
        PyOutcome.ok ((⟨buf, [], lwp⟩ : HandlerState), out)) ∧
    (∀ p n a q, es = p ++ Event.start n a :: q →
      ∃ buf stk lwp out,
        run initState p =
          PyOutcome.ok ((⟨buf, stk, lwp⟩ : HandlerState), out) ∧
        countFiller (startElement ⟨buf, stk, lwp⟩ n a).2 + countEnd p =
          countStart p) := by
  refine ⟨?_, ?_, ?_⟩
  · intro p q hpq
    obtain ⟨buf, stk, lwp, out, hrun, hlen⟩ := wf_run_front h initState p q hpq
    simp only [initState, List.length_nil, Nat.zero_add] at hlen
    exact ⟨buf, stk, lwp, out, hrun, hlen, by omega⟩
  · obtain ⟨buf, lwp, out, hrun⟩ := wf_run h initState
    exact ⟨buf, lwp, out, hrun⟩
  · intro p n a q hpq
    obtain ⟨buf, stk, lwp, out, hrun, hlen⟩ :=
      wf_run_front h initState p (Event.start n a :: q) hpq
    simp only [initState, List.length_nil, Nat.zero_add] at hlen
    refine ⟨buf, stk, lwp, out, hrun, ?_⟩
    rw [countFiller_startElement]
    exact hlen

/-- The well-formed sequence `<a><b/></a>` used by the C3 witness. -/
theorem wfExample :
    WF [Event.start "a" [], Event.start "b" [], Event.endTag "b",
      Event.endTag "a"] :=
  WF.node "a" [] [Event.start "b" [], Event.endTag "b"] []
    (WF.node "b" [] [] [] WF.nil WF.nil) WF.nil

/-- Witness for C3: after the well-formed sequence for `<a><b/></a>` the
stack is empty. -/
theorem C3_witness :
    ∃ buf lwp out,
      run initState [Event.start "a" [], Event.start "b" [],
        Event.endTag "b", Event.endTag "a"] =
      PyOutcome.ok ((⟨buf, [], lwp⟩ : HandlerState), out) :=
  (C3_depth_invariant _ wfExample).2.1

/-- Claim C4: character-data fragments delivered since the last drain
concatenate in arrival order into the buffer (emitting nothing), and at the
next `EndElement` the concatenation is trimmed exactly once: the rendered
data token is the single trim of the raw buffer, no data token is rendered
when the trim is empty, and the buffer is empty (drained) afterwards. -/
theorem C4_text_accumulation (st : HandlerState) (frags : List String)
    (name : String) (rest : List String) (h : st.elementStack = name :: rest) :
    ∃ st1 : HandlerState,
      run st (frags.map Event.chars) = PyOutcome.ok (st1, []) ∧
      st1.charBuffer = frags.foldl (fun b s => b ++ s) st.charBuffer ∧
      st1.elementStack = st.elementStack ∧
      st1.nLastWritePos = st.nLastWritePos ∧
      endElement st1 name = PyOutcome.ok
        ((⟨"", rest, st.nLastWritePos⟩ : HandlerState),
          (if pyStrip st1.charBuffer = "" then []
            else [Token.data (pyStrip st1.charBuffer)]) ++
            (if rest.length < st.nLastWritePos then writeSpaces rest.length
              else []) ++
            [Token.endName name]) := by
  have hrun : ∀ (fs : List String) (s0 : HandlerState),
      run s0 (fs.map Event.chars) =
        PyOutcome.ok ((⟨fs.foldl (fun b s => b ++ s) s0.charBuffer,
          s0.elementStack, s0.nLastWritePos⟩ : HandlerState), []) := by
    intro fs
    induction fs with
    | nil => intro s0; rfl
    | cons f t ih =>
      intro s0
      have hstep : step s0 (Event.chars f) =
          PyOutcome.ok (characters s0 f, []) := rfl
      have hall := run_cons_ok hstep (ih (characters s0 f))
      simpa [characters] using hall
  refine ⟨⟨frags.foldl (fun b s => b ++ s) st.charBuffer, st.elementStack,
    st.nLastWritePos⟩, hrun frags st, rfl, rfl, rfl, ?_⟩
  have hend := endElement_top
    ⟨frags.foldl (fun b s => b ++ s) st.charBuffer, st.elementStack,
      st.nLastWritePos⟩ name rest h
  rw [writeElementData_eq] at hend
  exact hend

/-- Witness for C4: fragments `"  Hel"` then `"lo "` buffered inside `<x>`
concatenate to `"  Hello "` and render as the single data token `Hello`
(`pyStrip` applied once) at the closing event, leaving an empty buffer. -/
theorem C4_witness :
    (∃ st1 : HandlerState,
      run (⟨"", ["x"], 0⟩ : HandlerState)
          (["  Hel", "lo "].map Event.chars) = PyOutcome.ok (st1, []) ∧
      st1.charBuffer = ["  Hel", "lo "].foldl (fun b s => b ++ s)
        (⟨"", ["x"], 0⟩ : HandlerState).charBuffer ∧
      st1.elementStack = (⟨"", ["x"], 0⟩ : HandlerState).elementStack ∧
      st1.nLastWritePos = (⟨"", ["x"], 0⟩ : HandlerState).nLastWritePos ∧
      endElement st1 "x" = PyOutcome.ok
        ((⟨"", [], (⟨"", ["x"], 0⟩ : HandlerState).nLastWritePos⟩ :
            HandlerState),
          (if pyStrip st1.charBuffer = "" then []
            else [Token.data (pyStrip st1.charBuffer)]) ++
            (if ([] : List String).length <
                (⟨"", ["x"], 0⟩ : HandlerState).nLastWritePos
              then writeSpaces ([] : List String).length else []) ++
            [Token.endName "x"])) ∧
    pyStrip (["  Hel", "lo "].foldl (fun b s => b ++ s) "") = "Hello" :=
  ⟨C4_text_accumulation ⟨"", ["x"], 0⟩ ["  Hel", "lo "] "x" [] rfl, by decide⟩

/-- Claim C5 (code bug): when the popped stack top does not equal the name
being closed, the source intends to report the mismatch and `sys.exit(4)`
(line 50), but the report itself (line 48) applies the format string
`'%s\nelement %s was not at the top of the stack\n\n'` — two `%s`
conversions — to the single argument `WHITE` (the `%` binds before the
comma, so `name` is a second argument of `print`, not of `%`), which raises
`TypeError: not enough arguments for format string` before `sys.exit(4)` is
reached; the uncaught `TypeError` is not handled by `main`'s `except`
clauses, so the process never exits with status 4. The matching-name half
of the claim holds: the pop returns the stack length before the pop minus
one. -/
theorem C5_pop_mismatch_crashes :
    popElementFromStack ["a"] "b" = PyOutcome.exn "TypeError" ∧
    popElementFromStack ["b", "a"] "b" = PyOutcome.ok (1, ["a"]) := by
  decide

/-- Claim C6 counterexample: an `EndElement` arriving on an empty stack does
NOT take a guarded error path — `self.elementStack.pop()` raises an
unchecked `IndexError` (modelled as `PyOutcome.exn`, distinct from the
deliberate `PyOutcome.exit` path the code uses for its one guarded error). -/
theorem C6_counterexample :
    run initState [Event.endTag "a"] = PyOutcome.exn "IndexError" := by decide

/-- Claim C6 (amended): the renderer does not guard against popping an empty
stack; popping an empty stack fails with an unchecked `IndexError` (this is
unreachable for well-formed input, where the event source's bracket
matching guarantee keeps the stack non-empty at every `EndElement`). -/
theorem C6_amended_pop_empty_unguarded (name : String) :
    popElementFromStack [] name = PyOutcome.exn "IndexError" := rfl

/-- Claim C7 (code bug): invoking with more than one positional argument
(and no help flag) does print usage and exit 1, but invoking with zero
positional arguments does not — the `__main__` block evaluates
`sys.argv[1]` (line 116) before the argument-count check (line 118), so a
zero-argument invocation raises an unchecked `IndexError` and the usage
text is never printed. -/
theorem C7_zero_args_crash :
    topLevel ["./xmlParse.py"] = MainResult.exnIndexError ∧
    topLevel ["./xmlParse.py", "a.xml", "b.xml"] = MainResult.usageExit 1 := by
  decide

/-- Claim C8 counterexample: an invocation that includes `--help` in a
position other than the first argument does not exit with status 0 — the
help check only inspects `sys.argv[1]`, so here the argument count check
fires instead and the program exits with status 1. -/
theorem C8_counterexample :
    topLevel ["./xmlParse.py", "doc.xml", "--help"] = MainResult.usageExit 1 := by
  decide

/-- Claim C8 (amended): the help check is performed before argument-count
validation but inspects only the first argument: any invocation whose FIRST
argument is `-h` or `--help` prints usage and exits with status 0
regardless of any further arguments present; a help flag in a later
position is not recognized. -/
theorem C8_amended_help_first_arg (prog : String) (rest : List String) :
    topLevel (prog :: "-h" :: rest) = MainResult.usageExit 0 ∧
    topLevel (prog :: "--help" :: rest) = MainResult.usageExit 0 := by
  constructor <;> simp [topLevel]

/-- Claim C9: with a single file-path argument, a parse error
(`SAXParseException`) is reported with the filename and the parser's
message and the process exits with status 2; a failure to open the path
(`OSError`, whether raised by `open` or while the parser reads) is reported
with the filename and the OS message and the process exits with status 3.
Each error leads directly to a terminal `sys.exit`; there is no retry path
in `main`. The outcomes of the external `open`/`xml.sax.parse` calls are
parameters of the embedding. -/
theorem C9_error_reporting (f m : String) (parseR : ParseResult) :
    mainFn f (OpenResult.osError m) parseR =
      MainOutcome.exitWith 3
        ("\nFailed to open " ++ f ++ ": " ++ m ++ "\n\n") ∧
    mainFn f OpenResult.ok (ParseResult.saxParseError m) =
      MainOutcome.exitWith 2
        ("\nFailed to parse " ++ f ++
          ". This appears not to be a valid xml document: " ++ m ++ "\n\n") ∧
    mainFn f OpenResult.ok (ParseResult.osError m) =
      MainOutcome.exitWith 3
        ("\nFailed to open " ++ f ++ ": " ++ m ++ "\n\n") :=
  ⟨rfl, rfl, rfl⟩

/-- Claim C10 (implicit behaviour): the text buffer is drained only on
`EndElement`, never on `StartElement`, so character data delivered after an
element's start tag but before a child's start tag is rendered as the data
of whichever element closes next. For the events `Start(a)`,
`Characters("hello")`, `Start(b)`, `End(b)`, `End(a)`: `Start(b)` leaves
the buffer `"hello"` untouched, the data token `hello` is emitted by
`End(b)`, and `End(a)` emits no data token. -/
theorem C10_text_attaches_to_next_close :
    step initState (Event.start "a" []) =
      PyOutcome.ok ((⟨"", ["a"], 0⟩ : HandlerState),
        [Token.newline, Token.startName "a"]) ∧
    step ⟨"", ["a"], 0⟩ (Event.chars "hello") =
      PyOutcome.ok ((⟨"hello", ["a"], 0⟩ : HandlerState), []) ∧
    step ⟨"hello", ["a"], 0⟩ (Event.start "b" []) =
      PyOutcome.ok ((⟨"hello", ["b", "a"], 1⟩ : HandlerState),
        [Token.newline, Token.filler, Token.startName "b"]) ∧
    step ⟨"hello", ["b", "a"], 1⟩ (Event.endTag "b") =
      PyOutcome.ok ((⟨"", ["a"], 1⟩ : HandlerState),
        [Token.data "hello", Token.endName "b"]) ∧
    step ⟨"", ["a"], 1⟩ (Event.endTag "a") =
      PyOutcome.ok ((⟨"", [], 1⟩ : HandlerState), [Token.endName "a"]) := by
  decide

end XmlParse
